import Mathlib

/-!
Shallow embedding of the query-translation engine of the manticore-mcp-server
repository, together with proofs of the stated specification properties.

The embedding covers:
- the value escaper of tools/documents/documents.go (formatValue);
- the text-query compiler of the search package (buildSQL and its OPTION
  helpers);
- the JSON-query compiler and the recursive boolean-clause compiler of
  tools/search/query_builder.go (BuildHTTPQuery, buildBoolQuery,
  buildSingleClause);
- the dispatch and error propagation of the search handler (Execute,
  executeSQLQuery, executeHTTPQuery, simulateHTTPQuery), with the network
  client abstracted as a function parameter and the statements handed to it
  recorded in a trace.

Go strings are modelled as Lean String (a wrapper around List Char); Go int
as Int; Go maps as association lists in insertion order, with lookups as the
observable interface.  Since Go map iteration order is unspecified, functions
that iterate over a map receive the entry list in an arbitrary order; two
argument records that denote the same map are related by the predicate
sameSearchInput defined below.
-/

/-- Single-quote character, written via its code point to keep literals plain. -/
def sqC : Char := Char.ofNat 39

/-- Backslash character. -/
def bsC : Char := Char.ofNat 92

/-- One-character string holding a single quote. -/
def sqS : String := String.singleton sqC

/-- One-character string holding a backslash. -/
def bsS : String := String.singleton bsC

/-- Go strings.Join: concatenate with a separator between elements. -/
def sJoin (sep : String) : List String → String
  | [] => ""
  | [x] => x
  | x :: y :: rest => x ++ sep ++ sJoin sep (y :: rest)

/-- Charwise expansion of strings.ReplaceAll(s, single backslash, two backslashes)
on the underlying character list. -/
def escBSL (l : List Char) : List Char :=
  l.flatMap (fun c => if c = bsC then [bsC, bsC] else [c])

/-- Charwise expansion of strings.ReplaceAll(s, quote, backslash quote). -/
def escQL (l : List Char) : List Char :=
  l.flatMap (fun c => if c = sqC then [bsC, sqC] else [c])

/-- Charwise expansion of strings.ReplaceAll(s, quote, two quotes): the
quote-doubling escape used by the search package. -/
def dqL (l : List Char) : List Char :=
  l.flatMap (fun c => if c = sqC then [sqC, sqC] else [c])

/-- String-level quote doubling, as in strings.ReplaceAll(s, quote, quote quote). -/
def escDouble (s : String) : String := String.mk (dqL s.data)

/-- String-level backslash escaping, as in formatValue. -/
def escBS (s : String) : String := String.mk (escBSL s.data)

/-- String-level quote escaping with a backslash, as in formatValue. -/
def escQuoteBS (s : String) : String := String.mk (escQL s.data)

/-- Undo the quote escaping: rewrite backslash-quote pairs back to a quote,
scanning left to right (the inverse pass of strings.ReplaceAll). -/
def unescQ : List Char → List Char
  | [] => []
  | [c] => [c]
  | c1 :: c2 :: rest =>
    if c1 = bsC ∧ c2 = sqC then sqC :: unescQ rest
    else c1 :: unescQ (c2 :: rest)

/-- Undo the backslash escaping: rewrite double backslashes back to one. -/
def unescBS : List Char → List Char
  | [] => []
  | [c] => [c]
  | c1 :: c2 :: rest =>
    if c1 = bsC ∧ c2 = bsC then bsC :: unescBS rest
    else c1 :: unescBS (c2 :: rest)

/-- Values a Go interface argument of formatValue can carry.  Floating-point
values are carried as their shortest-round-trip decimal rendering (the output
of the fmt %g verb), since IEEE formatting itself is outside this embedding;
the constructor for other dynamic types likewise carries the fmt %v rendering. -/
inductive GoValue where
  | goStr (s : String)
  | goInt (n : Int)
  | goFloat (grepr : String)
  | goBool (b : Bool)
  | goNil
  | goOther (vrepr : String)

/-- Embedding of formatValue from tools/documents/documents.go: render a
scalar as a textual query-language literal.  Strings escape backslashes
first, then single quotes, then are wrapped in single quotes; integers render
undecorated; floats render via the %g format; booleans as 1 or 0; nil as
NULL; other values render via %v with single quotes doubled, wrapped in
single quotes. -/
def formatValue : GoValue → String
  | .goStr v => sqS ++ escQuoteBS (escBS v) ++ sqS
  | .goInt n => toString n
  | .goFloat g => g
  | .goBool true => "1"
  | .goBool false => "0"
  | .goNil => "NULL"
  | .goOther v => sqS ++ escDouble v ++ sqS

/-- Inverse of the string case of formatValue, following the specification:
strip the outer single quotes, then undo the two replacements in reverse
order (first backslash-quote back to quote, then double backslash back to
backslash). -/
def unescapeLiteral (lit : String) : Option String :=
  match lit.data with
  | [] => none
  | c :: rest =>
    if c = sqC ∧ rest.getLast? = some sqC then
      some (String.mk (unescBS (unescQ rest.dropLast)))
    else none

/-- The example input from the specification: O, quote, Brien, backslash, path. -/
def obrienInput : String :=
  String.mk [Char.ofNat 79, sqC, Char.ofNat 66, Char.ofNat 114, Char.ofNat 105,
    Char.ofNat 101, Char.ofNat 110, bsC, Char.ofNat 112, Char.ofNat 97,
    Char.ofNat 116, Char.ofNat 104]

/-- The expected literal for the example input: quote, O, backslash, quote,
Brien, backslash, backslash, path, quote. -/
def obrienLiteral : String :=
  String.mk [sqC, Char.ofNat 79, bsC, sqC, Char.ofNat 66, Char.ofNat 114,
    Char.ofNat 105, Char.ofNat 101, Char.ofNat 110, bsC, bsC, Char.ofNat 112,
    Char.ofNat 97, Char.ofNat 116, Char.ofNat 104, sqC]

/-- Dynamic (interface-typed) values appearing inside queries and result
documents: strings, integers, booleans, null, arrays, and objects.  Objects
are modelled as association lists in insertion order; key lookup is the
observable interface of a Go map. -/
inductive JVal where
  | s (v : String)
  | i (v : Int)
  | b (v : Bool)
  | nul
  | arr (elems : List JVal)
  | obj (entries : List (String × JVal))

/-- Lookup of a key in an object entry list, first match wins (Go map lookup
on an association-list model with distinct keys). -/
def jlookup (entries : List (String × JVal)) (k : String) : Option JVal :=
  match entries with
  | [] => none
  | (k2, v) :: rest => if k2 = k then some v else jlookup rest k

/-- Dynamic payload of a QueryClause (the Data field of type any in
tools/search/query_builder.go).  One constructor per concrete payload struct
the builder type-asserts against, plus dynData for every other dynamic value
(for example a JSON object payload).  The bool payload carries the three
clause lists of a nested BoolQuery directly. -/
inductive CD where
  | matchData (field q op : String)
  | rangeData (field : String) (ranges : List (String × JVal))
  | equalsData (field : String) (value : JVal)
  | inData (field : String) (values : List JVal)
  | geoData (distanceType : String) (locationAnchor : List (String × JVal))
      (locationSource distance : String)
  | queryStringData (q : String)
  | matchAllData
  | boolData (must should mustNot : List (String × CD))
  | dynData (v : JVal)

/-- A QueryClause is a type tag together with its dynamic payload. -/
abbrev QueryClause := String × CD

/-- Top-level BoolQuery: three ordered lists of clauses. -/
structure BoolQuery where
  must : List QueryClause
  should : List QueryClause
  mustNot : List QueryClause

/-- HighlightOptions of the search package. -/
structure HighlightOptions where
  enabled : Bool
  fields : List String
  limit : Int
  limitPerField : Int
  limitWords : Int
  around : Int
  startTag : String
  endTag : String
  numberFragments : Int

/-- FuzzyOptions of the search package. -/
structure FuzzyOptions where
  enabled : Bool
  distance : Int
  preserve : Int
  layouts : List String

/-- Args of the search package: the complete search request.  The Go map
field FieldWeights is modelled as the list of its entries in iteration
order; whereConds models the Where field (a Lean keyword). -/
structure Args where
  query : String
  table : String
  cluster : String
  boolQuery : Option BoolQuery
  limit : Int
  offset : Int
  fields : List String
  ranker : String
  matchMode : String
  maxMatches : Int
  cutoff : Int
  maxQueryTime : Int
  fieldWeights : List (String × Int)
  notTermsOnlyAllowed : Int
  booleanSimplify : Int
  accurateAggregation : Int
  randSeed : Int
  comment : String
  agentQueryTimeout : Int
  retryCount : Int
  retryDelay : Int
  morphology : String
  tokenFilter : String
  maxPredictedTime : Int
  orderBy : List String
  groupBy : List String
  groupSort : String
  highlight : Option HighlightOptions
  fuzzy : Option FuzzyOptions
  whereConds : List String
  useHTTP : Bool

/-- An Args value with every field unset (Go zero values), used as the base
of concrete examples.  booleanSimplify is 1 here so that examples do not
trip the simplify-toggle emission unless they set it on purpose. -/
def baseArgs : Args where
  query := ""
  table := "products"
  cluster := ""
  boolQuery := none
  limit := 0
  offset := 0
  fields := []
  ranker := ""
  matchMode := ""
  maxMatches := 0
  cutoff := 0
  maxQueryTime := 0
  fieldWeights := []
  notTermsOnlyAllowed := 0
  booleanSimplify := 1
  accurateAggregation := 0
  randSeed := 0
  comment := ""
  agentQueryTimeout := 0
  retryCount := 0
  retryDelay := 0
  morphology := ""
  tokenFilter := ""
  maxPredictedTime := 0
  orderBy := []
  groupBy := []
  groupSort := ""
  highlight := none
  fuzzy := none
  whereConds := []
  useHTTP := false

/-- buildTableName: prefix the table with the cluster and a colon when a
cluster is given. -/
def buildTableName (cluster table : String) : String :=
  if cluster ≠ "" then cluster ++ ":" ++ table else table

/-- buildHighlightFunction from the search handler: construct the
HIGHLIGHT() projection expression.  Options map and field list are the two
optional positional arguments; absent arguments are omitted. -/
def buildHighlightFunction (h : HighlightOptions) : String :=
  if !h.enabled then ""
  else
    let highlightOpts : List String :=
      (if h.limit > 0 then ["limit=" ++ toString h.limit] else []) ++
      (if h.limitPerField > 0 then ["limit_per_field=" ++ toString h.limitPerField] else []) ++
      (if h.limitWords > 0 then ["limit_words=" ++ toString h.limitWords] else []) ++
      (if h.around > 0 then ["around=" ++ toString h.around] else []) ++
      (if h.startTag ≠ "" then ["before_match=" ++ sqS ++ escDouble h.startTag ++ sqS] else []) ++
      (if h.endTag ≠ "" then ["after_match=" ++ sqS ++ escDouble h.endTag ++ sqS] else [])
    let parts : List String :=
      (if highlightOpts ≠ [] then ["\x7b" ++ sJoin ", " highlightOpts ++ "\x7d"] else []) ++
      (if h.fields ≠ [] then [sqS ++ sJoin "," h.fields ++ sqS] else [])
    "HIGHLIGHT(" ++ sJoin ", " parts ++ ") AS highlight"

/-- addBasicSQLOptions: the option entries appended by the first helper
group, in source order.  The field-weight map is rendered from its entry
list in iteration order. -/
def addBasicSQLOptions (args : Args) : List String :=
  (if args.ranker ≠ "" then ["ranker=" ++ args.ranker] else []) ++
  (if args.maxMatches > 0 then ["max_matches=" ++ toString args.maxMatches] else []) ++
  (if args.cutoff > 0 then ["cutoff=" ++ toString args.cutoff] else []) ++
  (if args.maxQueryTime > 0 then ["max_query_time=" ++ toString args.maxQueryTime] else []) ++
  (if args.fieldWeights ≠ [] then
    ["field_weights=(" ++
      sJoin "," (args.fieldWeights.map (fun p => p.1 ++ "=" ++ toString p.2)) ++ ")"]
   else []) ++
  (if args.comment ≠ "" then ["comment=" ++ sqS ++ escDouble args.comment ++ sqS] else [])

/-- addAdvancedSQLOptions: the second helper group.  Note that the
simplification toggle is emitted only when the field is exactly 0. -/
def addAdvancedSQLOptions (args : Args) : List String :=
  (if args.notTermsOnlyAllowed > 0 then
    ["not_terms_only_allowed=" ++ toString args.notTermsOnlyAllowed] else []) ++
  (if args.booleanSimplify = 0 then ["boolean_simplify=0"] else []) ++
  (if args.accurateAggregation > 0 then
    ["accurate_aggregation=" ++ toString args.accurateAggregation] else []) ++
  (if args.randSeed > 0 then ["rand_seed=" ++ toString args.randSeed] else []) ++
  (if args.morphology ≠ "" then ["morphology=" ++ args.morphology] else []) ++
  (if args.tokenFilter ≠ "" then
    ["token_filter=" ++ sqS ++ escDouble args.tokenFilter ++ sqS] else []) ++
  (if args.maxPredictedTime > 0 then
    ["max_predicted_time=" ++ toString args.maxPredictedTime] else [])

/-- addAgentSQLOptions: distributed agent options. -/
def addAgentSQLOptions (args : Args) : List String :=
  (if args.agentQueryTimeout > 0 then
    ["agent_query_timeout=" ++ toString args.agentQueryTimeout] else []) ++
  (if args.retryCount > 0 then ["retry_count=" ++ toString args.retryCount] else []) ++
  (if args.retryDelay > 0 then ["retry_delay=" ++ toString args.retryDelay] else [])

/-- addFuzzySQLOptions: fuzzy search options, all guarded by the enabled flag. -/
def addFuzzySQLOptions (args : Args) : List String :=
  match args.fuzzy with
  | some f =>
    if f.enabled then
      ["fuzzy=1"] ++
      (if f.distance > 0 then ["distance=" ++ toString f.distance] else []) ++
      (if f.preserve > 0 then ["preserve=" ++ toString f.preserve] else []) ++
      (if f.layouts ≠ [] then ["layouts=" ++ sqS ++ sJoin "," f.layouts ++ sqS] else [])
    else []
  | none => []

/-- buildOptions: all four option groups, comma-joined. -/
def sqlOptionEntries (args : Args) : List String :=
  addBasicSQLOptions args ++ addAdvancedSQLOptions args ++
  addAgentSQLOptions args ++ addFuzzySQLOptions args

/-- buildOptions as a string, mirroring strings.Join of the entry list. -/
def buildOptions (args : Args) : String :=
  sJoin ", " (sqlOptionEntries args)

/-- Projection part of the SELECT clause: explicit field list or star, plus
the optional highlight expression. -/
def selectClause (args : Args) : String :=
  "SELECT " ++
  (if args.fields ≠ [] then sJoin ", " args.fields else "*") ++
  (match args.highlight with
   | some h =>
     if h.enabled then
       (if buildHighlightFunction h ≠ "" then ", " ++ buildHighlightFunction h else "")
     else ""
   | none => "")

/-- The ANDed raw filter conditions appended after the match predicate. -/
def andWhere : List String → String
  | [] => ""
  | c :: rest => " AND (" ++ c ++ ")" ++ andWhere rest

/-- GROUP BY clause with its optional group sort. -/
def groupClause (args : Args) : String :=
  if args.groupBy ≠ [] then
    " GROUP BY " ++ sJoin ", " args.groupBy ++
    (if args.groupSort ≠ "" then " ORDER BY " ++ args.groupSort else "")
  else ""

/-- ORDER BY clause, only when no GROUP BY is present. -/
def orderClause (args : Args) : String :=
  if args.groupBy = [] ∧ args.orderBy ≠ [] then
    " ORDER BY " ++ sJoin ", " args.orderBy
  else ""

/-- LIMIT clause, only when the limit is positive. -/
def limitClause (args : Args) : String :=
  if args.limit > 0 then " LIMIT " ++ toString args.limit else ""

/-- OFFSET clause, only when the offset is positive. -/
def offsetClause (args : Args) : String :=
  if args.offset > 0 then " OFFSET " ++ toString args.offset else ""

/-- OPTION clause, only when at least one option entry is present. -/
def optionClause (args : Args) : String :=
  if buildOptions args ≠ "" then " OPTION " ++ buildOptions args else ""

/-- buildSQL from the search handler: the complete textual statement, as the
concatenation of its clauses in source order.  The WHERE clause always
contains the full-text match predicate over the quote-doubled query text. -/
def buildSQL (args : Args) : String :=
  selectClause args ++
  " FROM " ++ buildTableName args.cluster args.table ++
  " WHERE MATCH(" ++ sqS ++ escDouble args.query ++ sqS ++ ")" ++
  andWhere args.whereConds ++
  groupClause args ++
  orderClause args ++
  limitClause args ++
  offsetClause args ++
  optionClause args

/-- Segment view of the textual statement: each piece of buildSQL output is
tagged by its role, so that structural statements (exactly one match
predicate, clause presence) can be made without substring arithmetic.
lit is compiler-fixed syntax, pass is caller-supplied text passed through. -/
inductive SqlPart where
  | lit (s : String)
  | pass (s : String)
  | matchPred (q : String)
  | limitP (n : Int)
  | offsetP (n : Int)

/-- Rendering of one segment back to statement text. -/
def renderPart : SqlPart → String
  | .lit s => s
  | .pass s => s
  | .matchPred q => "MATCH(" ++ sqS ++ escDouble q ++ sqS ++ ")"
  | .limitP n => " LIMIT " ++ toString n
  | .offsetP n => " OFFSET " ++ toString n

/-- Rendering of a segment list. -/
def renderParts : List SqlPart → String
  | [] => ""
  | p :: rest => renderPart p ++ renderParts rest

/-- Recognizer for the match-predicate segment. -/
def SqlPart.isMatchPred : SqlPart → Bool
  | .matchPred _ => true
  | _ => false

/-- Recognizer for the LIMIT segment. -/
def SqlPart.isLimit : SqlPart → Bool
  | .limitP _ => true
  | _ => false

/-- Recognizer for the OFFSET segment. -/
def SqlPart.isOffset : SqlPart → Bool
  | .offsetP _ => true
  | _ => false

/-- The raw filter segments: each condition is parenthesized and preceded by
AND. -/
def whereParts (conds : List String) : List SqlPart :=
  conds.flatMap (fun c => [.lit " AND (", .pass c, .lit ")"])

/-- The statement of buildSQL as a segment list. -/
def sqlParts (args : Args) : List SqlPart :=
  [.lit (selectClause args), .lit " FROM ",
   .pass (buildTableName args.cluster args.table), .lit " WHERE ",
   .matchPred args.query] ++
  whereParts args.whereConds ++
  [.lit (groupClause args), .lit (orderClause args)] ++
  (if args.limit > 0 then [SqlPart.limitP args.limit] else []) ++
  (if args.offset > 0 then [SqlPart.offsetP args.offset] else []) ++
  [.lit (optionClause args)]

/-- Two argument records denote the same search request when every field is
equal and the field-weight entry lists are permutations of each other with
duplicate-free keys: a Go map determines its entry set but not the order in
which range iterates it. -/
def sameSearchInput (a b : Args) : Prop :=
  a.query = b.query ∧ a.table = b.table ∧ a.cluster = b.cluster ∧
  a.boolQuery = b.boolQuery ∧ a.limit = b.limit ∧ a.offset = b.offset ∧
  a.fields = b.fields ∧ a.ranker = b.ranker ∧ a.matchMode = b.matchMode ∧
  a.maxMatches = b.maxMatches ∧ a.cutoff = b.cutoff ∧
  a.maxQueryTime = b.maxQueryTime ∧
  a.fieldWeights.Perm b.fieldWeights ∧
  (a.fieldWeights.map Prod.fst).Nodup ∧
  a.notTermsOnlyAllowed = b.notTermsOnlyAllowed ∧
  a.booleanSimplify = b.booleanSimplify ∧
  a.accurateAggregation = b.accurateAggregation ∧ a.randSeed = b.randSeed ∧
  a.comment = b.comment ∧ a.agentQueryTimeout = b.agentQueryTimeout ∧
  a.retryCount = b.retryCount ∧ a.retryDelay = b.retryDelay ∧
  a.morphology = b.morphology ∧ a.tokenFilter = b.tokenFilter ∧
  a.maxPredictedTime = b.maxPredictedTime ∧ a.orderBy = b.orderBy ∧
  a.groupBy = b.groupBy ∧ a.groupSort = b.groupSort ∧
  a.highlight = b.highlight ∧ a.fuzzy = b.fuzzy ∧
  a.whereConds = b.whereConds ∧ a.useHTTP = b.useHTTP

/-- Error values of tools/search/query_builder.go: one sentinel per payload
type whose assertion can fail, plus the unsupported-clause error which
carries the offending tag. -/
inductive BErr where
  | invalidMatchClauseData
  | invalidRangeClauseData
  | invalidEqualsClauseData
  | invalidInClauseData
  | invalidGeoDistanceClauseData
  | invalidQueryStringClauseData
  | invalidBoolClauseData
  | unsupportedClauseType (t : String)
deriving DecidableEq

/-- The error text produced for each builder error, mirroring the Go error
values and the wrapping fmt.Errorf for the unsupported case. -/
def errText : BErr → String
  | .invalidMatchClauseData => "invalid match clause data"
  | .invalidRangeClauseData => "invalid range clause data"
  | .invalidEqualsClauseData => "invalid equals clause data"
  | .invalidInClauseData => "invalid in clause data"
  | .invalidGeoDistanceClauseData => "invalid geo_distance clause data"
  | .invalidQueryStringClauseData => "invalid query_string clause data"
  | .invalidBoolClauseData => "invalid bool clause data"
  | .unsupportedClauseType t => "unsupported query clause type: " ++ t

/-- buildMatchClause: match document, with the two-key form when an operator
is set. -/
def buildMatchClauseJ (field q op : String) : JVal :=
  if op ≠ "" then
    .obj [("match", .obj [(field, .obj [("query", .s q), ("operator", .s op)])])]
  else
    .obj [("match", .obj [(field, .s q)])]

/-- buildRangeClause: the bound map is passed through verbatim. -/
def buildRangeClauseJ (field : String) (ranges : List (String × JVal)) : JVal :=
  .obj [("range", .obj [(field, .obj ranges)])]

/-- buildEqualsClause. -/
def buildEqualsClauseJ (field : String) (value : JVal) : JVal :=
  .obj [("equals", .obj [(field, value)])]

/-- buildInClause. -/
def buildInClauseJ (field : String) (values : List JVal) : JVal :=
  .obj [("in", .obj [(field, .arr values)])]

/-- buildGeoDistanceClause. -/
def buildGeoDistanceClauseJ (distanceType : String)
    (locationAnchor : List (String × JVal)) (locationSource distance : String) : JVal :=
  .obj [("geo_distance", .obj
    [("distance_type", .s distanceType),
     ("location_anchor", .obj locationAnchor),
     ("location_source", .s locationSource),
     ("distance", .s distance)])]

/-- buildQueryStringClause. -/
def buildQueryStringClauseJ (q : String) : JVal :=
  .obj [("query_string", .s q)]

/-- buildMatchAllClause. -/
def buildMatchAllClauseJ : JVal :=
  .obj [("match_all", .obj [])]

mutual

/-- buildSingleClause: dispatch on the type tag, then type-assert the
payload.  An unknown tag is the unsupported-clause error carrying the tag;
a payload whose dynamic type does not match the tag is the corresponding
invalid-data error. -/
def buildSingleClause : QueryClause → Except BErr JVal
  | (t, d) =>
    match t, d with
    | "match", .matchData f q op => .ok (buildMatchClauseJ f q op)
    | "match", _ => .error .invalidMatchClauseData
    | "range", .rangeData f r => .ok (buildRangeClauseJ f r)
    | "range", _ => .error .invalidRangeClauseData
    | "equals", .equalsData f v => .ok (buildEqualsClauseJ f v)
    | "equals", _ => .error .invalidEqualsClauseData
    | "in", .inData f vs => .ok (buildInClauseJ f vs)
    | "in", _ => .error .invalidInClauseData
    | "geo_distance", .geoData dt an src dist => .ok (buildGeoDistanceClauseJ dt an src dist)
    | "geo_distance", _ => .error .invalidGeoDistanceClauseData
    | "query_string", .queryStringData q => .ok (buildQueryStringClauseJ q)
    | "query_string", _ => .error .invalidQueryStringClauseData
    | "match_all", _ => .ok buildMatchAllClauseJ
    | "bool", .boolData m s n => buildBoolQueryJ m s n
    | "bool", _ => .error .invalidBoolClauseData
    | t2, _ => .error (.unsupportedClauseType t2)
termination_by c => (sizeOf c, 0)

/-- One conditional block of buildBoolQuery: compile a clause list into its
keyed entry, contributing nothing when the list is empty. -/
def boolSeg (key : String) (l : List QueryClause) : Except BErr (List (String × JVal)) :=
  if l.isEmpty then pure []
  else do
    let r ← buildQueryClauses l
    pure [(key, JVal.arr r)]
termination_by (sizeOf l, 1)

/-- buildBoolQuery: compile the three clause lists, each key present exactly
when its source list is non-empty, wrapped in a single bool key. -/
def buildBoolQueryJ (m s n : List QueryClause) : Except BErr JVal := do
  let mEnt ← boolSeg "must" m
  let sEnt ← boolSeg "should" s
  let nEnt ← boolSeg "must_not" n
  pure (.obj [("bool", .obj (mEnt ++ sEnt ++ nEnt))])
termination_by (1 + sizeOf m + sizeOf s + sizeOf n, 0)

/-- buildQueryClauses: compile each clause in order, failing on the first
error. -/
def buildQueryClauses : List QueryClause → Except BErr (List JVal)
  | [] => .ok []
  | c :: rest => do
    let j ← buildSingleClause c
    let l ← buildQueryClauses rest
    pure (j :: l)
termination_by l => (sizeOf l, 0)

end

/-- Whitespace splitter behind strings.Fields: accumulate the current word
and cut at whitespace. -/
def goFieldsAux : List Char → List Char → List String
  | [], cur => if cur.isEmpty then [] else [String.mk cur.reverse]
  | c :: rest, cur =>
    if c.isWhitespace then
      if cur.isEmpty then goFieldsAux rest []
      else String.mk cur.reverse :: goFieldsAux rest []
    else goFieldsAux rest (c :: cur)

/-- strings.Fields: split a string around runs of whitespace. -/
def goFields (s : String) : List String :=
  goFieldsAux s.data []

/-- strings.ToLower restricted to the ASCII range used by sort directions. -/
def lowerS (s : String) : String :=
  String.mk (s.data.map Char.toLower)

/-- One sort entry of the JSON query: a two-token order expression becomes a
field-to-direction pair, a one-token expression defaults to ascending. -/
def sortEntry (orderExpr : String) : JVal :=
  match goFields orderExpr with
  | f :: d :: _ => .obj [(f, .s (lowerS d))]
  | _ => .obj [(orderExpr, .s "asc")]

/-- buildHighlightOptions of the JSON-query compiler: the highlight block as
key/value pairs, each present only when set. -/
def buildHighlightOptionsJ (h : HighlightOptions) : List (String × JVal) :=
  (if h.fields ≠ [] then [("fields", JVal.arr (h.fields.map JVal.s))] else []) ++
  (if h.limit > 0 then [("limit", JVal.i h.limit)] else []) ++
  (if h.limitPerField > 0 then [("limit_per_field", JVal.i h.limitPerField)] else []) ++
  (if h.limitWords > 0 then [("limit_words", JVal.i h.limitWords)] else []) ++
  (if h.around > 0 then [("around", JVal.i h.around)] else []) ++
  (if h.startTag ≠ "" then [("before_match", JVal.s h.startTag)] else []) ++
  (if h.endTag ≠ "" then [("after_match", JVal.s h.endTag)] else []) ++
  (if h.numberFragments > 0 then [("number_of_fragments", JVal.i h.numberFragments)] else [])

/-- addBasicOptions of the JSON-query compiler.  The field-weight map is
passed through as an object value. -/
def addBasicOptionsJ (args : Args) : List (String × JVal) :=
  (if args.ranker ≠ "" then [("ranker", JVal.s args.ranker)] else []) ++
  (if args.maxMatches > 0 then [("max_matches", JVal.i args.maxMatches)] else []) ++
  (if args.cutoff > 0 then [("cutoff", JVal.i args.cutoff)] else []) ++
  (if args.maxQueryTime > 0 then [("max_query_time", JVal.i args.maxQueryTime)] else []) ++
  (if args.fieldWeights ≠ [] then
    [("field_weights", JVal.obj (args.fieldWeights.map (fun p => (p.1, JVal.i p.2))))]
   else []) ++
  (if args.comment ≠ "" then [("comment", JVal.s args.comment)] else [])

/-- addAdvancedOptions of the JSON-query compiler: again the simplification
toggle is emitted only when the field is exactly 0. -/
def addAdvancedOptionsJ (args : Args) : List (String × JVal) :=
  (if args.notTermsOnlyAllowed > 0 then
    [("not_terms_only_allowed", JVal.i args.notTermsOnlyAllowed)] else []) ++
  (if args.booleanSimplify = 0 then [("boolean_simplify", JVal.i 0)] else []) ++
  (if args.accurateAggregation > 0 then
    [("accurate_aggregation", JVal.i args.accurateAggregation)] else []) ++
  (if args.randSeed > 0 then [("rand_seed", JVal.i args.randSeed)] else []) ++
  (if args.morphology ≠ "" then [("morphology", JVal.s args.morphology)] else []) ++
  (if args.tokenFilter ≠ "" then [("token_filter", JVal.s args.tokenFilter)] else []) ++
  (if args.maxPredictedTime > 0 then
    [("max_predicted_time", JVal.i args.maxPredictedTime)] else [])

/-- addAgentOptions of the JSON-query compiler. -/
def addAgentOptionsJ (args : Args) : List (String × JVal) :=
  (if args.agentQueryTimeout > 0 then
    [("agent_query_timeout", JVal.i args.agentQueryTimeout)] else []) ++
  (if args.retryCount > 0 then [("retry_count", JVal.i args.retryCount)] else []) ++
  (if args.retryDelay > 0 then [("retry_delay", JVal.i args.retryDelay)] else [])

/-- buildHTTPOptions: the options block entries. -/
def buildHTTPOptions (args : Args) : List (String × JVal) :=
  addBasicOptionsJ args ++ addAdvancedOptionsJ args ++ addAgentOptionsJ args

/-- The query value of the JSON document: a compiled boolean query when one
is present, else a single match clause over all fields when free text is
present, else an explicit match-all clause. -/
def mainQueryJ (args : Args) : Except BErr JVal :=
  match args.boolQuery with
  | some bq => buildBoolQueryJ bq.must bq.should bq.mustNot
  | none =>
    if args.query ≠ "" then
      .ok (.obj [("match", .obj [("*", .s args.query)])])
    else
      .ok (.obj [("match_all", .obj [])])

/-- BuildHTTPQuery of tools/search/query_builder.go: the JSON query document
as an entry list in insertion order.  The query builder receives the cluster
and table of the request, as at the call site in the handler. -/
def buildHTTPQuery (args : Args) : Except BErr (List (String × JVal)) := do
  let mq ← mainQueryJ args
  pure (
    [("table", JVal.s (buildTableName args.cluster args.table)), ("query", mq)] ++
    (if args.limit > 0 then [("limit", JVal.i args.limit)] else []) ++
    (if args.offset > 0 then [("offset", JVal.i args.offset)] else []) ++
    (if args.fields ≠ [] then [("_source", JVal.arr (args.fields.map JVal.s))] else []) ++
    (if args.orderBy ≠ [] then [("sort", JVal.arr (args.orderBy.map sortEntry))] else []) ++
    (match args.highlight with
     | some h => if h.enabled then [("highlight", JVal.obj (buildHighlightOptionsJ h))] else []
     | none => []) ++
    (if (buildHTTPOptions args).isEmpty then [] else
      [("options", JVal.obj (buildHTTPOptions args))]))

mutual

/-- Rendering of a dynamic value by the fmt %v verb, as used when the
simulation path interpolates a query value: strings and numbers render
plainly, composites render with the bracketed Go notations. -/
def govFormat : JVal → String
  | .s v => v
  | .i n => toString n
  | .b true => "true"
  | .b false => "false"
  | .nul => "<nil>"
  | .arr l => "[" ++ sJoin " " (govFormatList l) ++ "]"
  | .obj l => "map[" ++ sJoin " " (govFormatEntries l) ++ "]"

/-- Rendering of the elements of a slice for the fmt %v verb. -/
def govFormatList : List JVal → List String
  | [] => []
  | v :: rest => govFormat v :: govFormatList rest

/-- Rendering of map entries for the fmt %v verb. -/
def govFormatEntries : List (String × JVal) → List String
  | [] => []
  | (k, v) :: rest => (k ++ ":" ++ govFormat v) :: govFormatEntries rest

end

/-- Errors of the simulation path that converts a JSON query document back
into a textual statement. -/
inductive SimErr where
  | invalidQueryFormat
  | invalidMatchQuery
  | invalidBoolQuery
  | unsupportedQueryType
deriving DecidableEq

mutual

/-- appendQueryToSQL of the handler: convert a query value into the WHERE
text of the simulated statement.  The handlers are tried in source order:
match, match_all, query_string, bool; any other object is the unsupported
query error and a non-object is the invalid-format error. -/
def appendQueryToSQL : JVal → Except SimErr String
  | .obj m =>
    match jlookup m "match" with
    | some mv =>
      (match mv with
       | .obj mm =>
         (match mm with
          | [] => .ok ""
          | (field, value) :: _ =>
            if field = "*" then
              .ok ("MATCH(" ++ sqS ++ escDouble (govFormat value) ++ sqS ++ ")")
            else
              .ok ("MATCH(" ++ sqS ++ "@" ++ field ++ " " ++
                   escDouble (govFormat value) ++ sqS ++ ")"))
       | _ => .error .invalidMatchQuery)
    | none =>
      match jlookup m "match_all" with
      | some _ => .ok "1=1"
      | none =>
        match jlookup m "query_string" with
        | some qs => .ok ("MATCH(" ++ sqS ++ escDouble (govFormat qs) ++ sqS ++ ")")
        | none => handleBoolLookup m
  | _ => .error .invalidQueryFormat
termination_by q => sizeOf q

/-- Traversal behind the bool handler: find the first bool entry of the
query map and process it in place; a missing bool key is the unsupported
query error (the last handler in the chain has failed). -/
def handleBoolLookup : List (String × JVal) → Except SimErr String
  | [] => .error .unsupportedQueryType
  | (k, v) :: rest =>
    if k = "bool" then
      match v with
      | .obj bm => processBoolMap bm
      | _ => .error .invalidBoolQuery
    else handleBoolLookup rest
termination_by l => sizeOf l

/-- Traversal behind processMustClauses: find the first must entry of the
bool map; a missing must key or a non-slice value leaves the condition list
empty, which renders as the match-all condition. -/
def processBoolMap : List (String × JVal) → Except SimErr String
  | [] => .ok "1=1"
  | (k, v) :: rest =>
    if k = "must" then
      match v with
      | .arr clauses => do
        let conds ← processMustList clauses
        if conds.isEmpty then pure "1=1"
        else pure (sJoin " AND " conds)
      | _ => .ok "1=1"
    else processBoolMap rest
termination_by l => sizeOf l

/-- processMustClauses: convert each clause of a must list, parenthesized. -/
def processMustList : List JVal → Except SimErr (List String)
  | [] => .ok []
  | c :: rest => do
    let s ← appendQueryToSQL c
    let r ← processMustList rest
    pure (("(" ++ s ++ ")") :: r)
termination_by l => sizeOf l

end

/-- Error taxonomy of the search operation, as surfaced by Execute and its
two execution paths. -/
inductive ExecErr where
  | tableRequired
  | queryRequired
  | buildHTTPFailed (e : BErr)
  | invalidTableInHTTPQuery
  | simQueryFailed (e : SimErr)
  | sqlSearchFailed (msg : String)
  | simulatedSearchFailed (msg : String)
deriving DecidableEq

/-- Whether an error belongs to the compile-time categories of the claim:
missing collection name, missing predicate source in text mode, or an
unsupported or malformed clause. -/
def ExecErr.isCompileErr : ExecErr → Bool
  | .tableRequired => true
  | .queryRequired => true
  | .buildHTTPFailed _ => true
  | _ => false

/-- Defaults applied by the text path before compiling: limit 10 when
unset, match mode extended when unset. -/
def sqlArgsNorm (args : Args) : Args :=
  { args with
    limit := if args.limit ≤ 0 then 10 else args.limit,
    matchMode := if args.matchMode = "" then "extended" else args.matchMode }

/-- executeSQLQuery: reject when there is neither query text nor a raw
filter; apply the defaults; build the statement and hand it to the client
exactly once.  The second component records every statement sent to the
client. -/
def executeSQLQuery {α : Type} (client : String → Except String α) (args : Args) :
    Except ExecErr α × List String :=
  if args.query = "" ∧ args.whereConds = [] then (.error .queryRequired, [])
  else
    match client (buildSQL (sqlArgsNorm args)) with
    | .ok r => (.ok r, [buildSQL (sqlArgsNorm args)])
    | .error m => (.error (.sqlSearchFailed m), [buildSQL (sqlArgsNorm args)])

/-- The WHERE text of the simulated statement: built from the query value
when one is present, empty otherwise. -/
def simulateWhere (httpQuery : List (String × JVal)) : Except SimErr String :=
  match jlookup httpQuery "query" with
  | some q => do
    let w ← appendQueryToSQL q
    pure (" WHERE " ++ w)
  | none => pure ""

/-- The LIMIT text of the simulated statement, present only for a positive
integer limit value. -/
def simLimit (httpQuery : List (String × JVal)) : String :=
  match jlookup httpQuery "limit" with
  | some (.i n) => if n > 0 then " LIMIT " ++ toString n else ""
  | _ => ""

/-- The OFFSET text of the simulated statement. -/
def simOffset (httpQuery : List (String × JVal)) : String :=
  match jlookup httpQuery "offset" with
  | some (.i n) => if n > 0 then " OFFSET " ++ toString n else ""
  | _ => ""

/-- The complete simulated statement for a given table and WHERE text. -/
def simSQL (httpQuery : List (String × JVal)) (table wherePart : String) : String :=
  "SELECT * FROM " ++ table ++ wherePart ++ simLimit httpQuery ++ simOffset httpQuery

/-- simulateHTTPQuery: lower the JSON document to a basic statement and hand
it to the client; a missing or non-string table, or a query value the
simulation cannot lower, is an error before any client call. -/
def simulateHTTPQuery {α : Type} (client : String → Except String α)
    (httpQuery : List (String × JVal)) : Except ExecErr α × List String :=
  match jlookup httpQuery "table" with
  | some (.s table) =>
    (match simulateWhere httpQuery with
     | .error e => (.error (.simQueryFailed e), [])
     | .ok wherePart =>
       match client (simSQL httpQuery table wherePart) with
       | .ok r => (.ok r, [simSQL httpQuery table wherePart])
       | .error m => (.error (.simulatedSearchFailed m), [simSQL httpQuery table wherePart]))
  | _ => (.error .invalidTableInHTTPQuery, [])

/-- Default applied by the JSON path before compiling: limit 10 when unset. -/
def httpArgsNorm (args : Args) : Args :=
  { args with limit := if args.limit ≤ 0 then 10 else args.limit }

/-- executeHTTPQuery: apply the limit default, compile the JSON document,
and only on success hand anything to the simulation and hence the client. -/
def executeHTTPQuery {α : Type} (client : String → Except String α) (args : Args) :
    Except ExecErr α × List String :=
  match buildHTTPQuery (httpArgsNorm args) with
  | .error e => (.error (.buildHTTPFailed e), [])
  | .ok doc => simulateHTTPQuery client doc

/-- Execute of the search handler: the collection name is checked first,
then the request is dispatched to the JSON path when a boolean query or the
mode flag is present, else to the text path. -/
def execute {α : Type} (client : String → Except String α) (args : Args) :
    Except ExecErr α × List String :=
  if args.table = "" then (.error .tableRequired, [])
  else if args.useHTTP || args.boolQuery.isSome then executeHTTPQuery client args
  else executeSQLQuery client args

/-- Go strings.HasPrefix on the character lists. -/
def strHasPrefix (p s : String) : Bool :=
  p.data.isPrefixOf s.data

/-- Substring test on character lists: the pattern occurs at some position. -/
def hasSubL (pat : List Char) : List Char → Bool
  | [] => pat.isEmpty
  | c :: rest => pat.isPrefixOf (c :: rest) || hasSubL pat rest

/-- Go strings.Contains: the pattern occurs somewhere in the string. -/
def hasSub (s pat : String) : Bool :=
  hasSubL pat.data s.data

/-- Every single quote in the list is immediately followed by another single
quote that closes the pair: no lone (unescaped) quote remains. -/
def pairedQuotes : List Char → Bool
  | [] => true
  | [c] => !(c = sqC)
  | c1 :: c2 :: rest =>
    if c1 = sqC then c2 = sqC && pairedQuotes rest
    else pairedQuotes (c2 :: rest)

/-- Whether an option entry of the textual statement is the simplification
toggle: its text starts with the option name. -/
def isBoolSimplifyEntry (e : String) : Bool :=
  strHasPrefix "boolean_simplify" e

/-- The known clause tags of the boolean clause compiler, in switch order. -/
def knownTags : List String :=
  ["match", "range", "equals", "in", "geo_distance", "query_string",
   "match_all", "bool"]

/-- Whether a dynamic payload has the shape its tag declares, mirroring the
type assertions of the builder.  The match_all case ignores its payload in
the source, so every payload matches that tag. -/
def shapeMatches : String → CD → Bool
  | "match", .matchData _ _ _ => true
  | "range", .rangeData _ _ => true
  | "equals", .equalsData _ _ => true
  | "in", .inData _ _ => true
  | "geo_distance", .geoData _ _ _ _ => true
  | "query_string", .queryStringData _ => true
  | "match_all", _ => true
  | "bool", .boolData _ _ _ => true
  | _, _ => false

/-- The invalid-payload error returned for each known tag.  The match_all
entry is never reachable, since that tag accepts every payload. -/
def payloadErr : String → BErr
  | "range" => .invalidRangeClauseData
  | "equals" => .invalidEqualsClauseData
  | "in" => .invalidInClauseData
  | "geo_distance" => .invalidGeoDistanceClauseData
  | "query_string" => .invalidQueryStringClauseData
  | "bool" => .invalidBoolClauseData
  | _ => .invalidMatchClauseData

theorem sdata_append (a b : String) : (a ++ b).data = a.data ++ b.data := rfl

theorem smk_data (s : String) : String.mk s.data = s := rfl

theorem escQL_eq_nil {m : List Char} (h : escQL m = []) : m = [] := by
  cases m with
  | nil => rfl
  | cons c m =>
    by_cases hc : c = sqC <;> simp [escQL, hc] at h

theorem escQL_head_ne {m : List Char} {d : Char} {t : List Char}
    (h : escQL m = d :: t) : d ≠ sqC := by
  cases m with
  | nil => simp [escQL] at h
  | cons c m =>
    by_cases hc : c = sqC
    · subst hc
      have h2 : escQL (sqC :: m) = bsC :: sqC :: escQL m := by simp [escQL]
      rw [h2] at h
      cases h
      decide
    · have h2 : escQL (c :: m) = c :: escQL m := by simp [escQL, hc]
      rw [h2] at h
      cases h
      exact hc

theorem unescQ_escQL (m : List Char) : unescQ (escQL m) = m := by
  induction m with
  | nil => rfl
  | cons c m ih =>
    by_cases hc : c = sqC
    · subst hc
      have h : escQL (sqC :: m) = bsC :: sqC :: escQL m := by simp [escQL]
      rw [h]
      simp [unescQ, ih]
    · have h : escQL (c :: m) = c :: escQL m := by simp [escQL, hc]
      rw [h]
      cases hm : escQL m with
      | nil =>
        have := escQL_eq_nil hm
        subst this
        simp [unescQ]
      | cons d t =>
        have hd : d ≠ sqC := escQL_head_ne hm
        rw [← hm]
        have : unescQ (c :: escQL m) = c :: unescQ (escQL m) := by
          rw [hm]
          simp [unescQ, hd]
        rw [this, ih]

theorem escBSL_eq_nil {m : List Char} (h : escBSL m = []) : m = [] := by
  cases m with
  | nil => rfl
  | cons c m =>
    by_cases hc : c = bsC <;> simp [escBSL, hc] at h

theorem unescBS_escBSL (m : List Char) : unescBS (escBSL m) = m := by
  induction m with
  | nil => rfl
  | cons c m ih =>
    by_cases hc : c = bsC
    · subst hc
      have h : escBSL (bsC :: m) = bsC :: bsC :: escBSL m := by simp [escBSL]
      rw [h]
      simp [unescBS, ih]
    · have h : escBSL (c :: m) = c :: escBSL m := by simp [escBSL, hc]
      rw [h]
      cases hm : escBSL m with
      | nil =>
        have := escBSL_eq_nil hm
        subst this
        simp [unescBS]
      | cons d t =>
        rw [← hm]
        have : unescBS (c :: escBSL m) = c :: unescBS (escBSL m) := by
          rw [hm]
          simp [unescBS, hc]
        rw [this, ih]

theorem roundtrip_chars (l : List Char) :
    unescBS (unescQ (escQL (escBSL l))) = l := by
  rw [unescQ_escQL, unescBS_escBSL]

/-- C1: the value escaper renders strings by escaping backslashes first,
then single quotes, then wrapping in single quotes, and unescaping the
resulting literal (strip outer quotes, undo the replacements in reverse)
recovers the input exactly, for every input; the example input with a quote
and a backslash produces exactly the literal of the specification; integers
render undecorated, floats via the general shortest format carried by the
value, booleans as 1 and 0, null as NULL, and any other value via its
best-effort string form with single quotes doubled, wrapped in quotes. -/
theorem c1_value_escaper_roundtrip :
    (∀ s : String, unescapeLiteral (formatValue (.goStr s)) = some s) ∧
    formatValue (.goStr obrienInput) = obrienLiteral ∧
    (∀ n : Int, formatValue (.goInt n) = toString n) ∧
    (∀ g : String, formatValue (.goFloat g) = g) ∧
    formatValue (.goBool true) = "1" ∧
    formatValue (.goBool false) = "0" ∧
    formatValue .goNil = "NULL" ∧
    (∀ v : String, formatValue (.goOther v) = sqS ++ escDouble v ++ sqS) := by
  refine ⟨?_, by decide, fun n => rfl, fun g => rfl, rfl, rfl, rfl, fun v => rfl⟩
  intro s
  have hdata : (formatValue (.goStr s)).data
      = sqC :: (escQL (escBSL s.data) ++ [sqC]) := rfl
  unfold unescapeLiteral
  rw [hdata]
  simp [List.getLast?_concat, List.dropLast_concat, roundtrip_chars]

/-- C2 counterexample: two argument records denoting the same search request
(the same two field weights, listed in the two possible map iteration
orders) compile to different textual statements, so compilation is not a
function of the input map when the weight map has two entries. -/
theorem c2_counterexample :
    sameSearchInput
      { baseArgs with query := "test", fieldWeights := [("a", 1), ("b", 2)] }
      { baseArgs with query := "test", fieldWeights := [("b", 2), ("a", 1)] } ∧
    buildSQL { baseArgs with query := "test", fieldWeights := [("a", 1), ("b", 2)] } ≠
      buildSQL { baseArgs with query := "test", fieldWeights := [("b", 2), ("a", 1)] } := by
  constructor
  · exact ⟨rfl, rfl, rfl, rfl, rfl, rfl, rfl, rfl, rfl, rfl, rfl, rfl,
      List.Perm.swap _ _ _, by decide, rfl, rfl, rfl, rfl, rfl, rfl, rfl, rfl,
      rfl, rfl, rfl, rfl, rfl, rfl, rfl, rfl, rfl, rfl⟩
  · decide

/-- C2 amended: compilation is deterministic whenever the per-field weight
map has at most one entry; both the text compiler and the JSON compiler then
produce identical output on any two representations of the same input. -/
theorem c2_deterministic_upto_weights (a b : Args) (h : sameSearchInput a b)
    (hw : a.fieldWeights.length ≤ 1) :
    buildSQL a = buildSQL b ∧ buildHTTPQuery a = buildHTTPQuery b := by
  obtain ⟨h1, h2, h3, h4, h5, h6, h7, h8, h9, h10, h11, h12, hp, hnd,
    h13, h14, h15, h16, h17, h18, h19, h20, h21, h22, h23, h24, h25, h26,
    h27, h28, h29, h30⟩ := h
  have hfw : a.fieldWeights = b.fieldWeights := by
    cases hfa : a.fieldWeights with
    | nil =>
      rw [hfa] at hp
      exact (hp.symm.eq_nil).symm
    | cons x t =>
      cases t with
      | nil =>
        rw [hfa] at hp
        exact (List.perm_singleton.mp hp.symm).symm
      | cons y t2 => simp [hfa] at hw
  have hab : a = b := by
    cases a
    cases b
    simp_all
  rw [hab]
  exact ⟨rfl, rfl⟩

/-- Witness for the amended determinism theorem at a concrete one-entry
weight map. -/
theorem c2_deterministic_upto_weights_witness :
    buildSQL { baseArgs with query := "test", fieldWeights := [("title", 2)] } =
      buildSQL { baseArgs with query := "test", fieldWeights := [("title", 2)] } ∧
    buildHTTPQuery { baseArgs with query := "test", fieldWeights := [("title", 2)] } =
      buildHTTPQuery { baseArgs with query := "test", fieldWeights := [("title", 2)] } :=
  c2_deterministic_upto_weights _ _
    ⟨rfl, rfl, rfl, rfl, rfl, rfl, rfl, rfl, rfl, rfl, rfl, rfl,
      List.Perm.refl _, by decide, rfl, rfl, rfl, rfl, rfl, rfl, rfl, rfl,
      rfl, rfl, rfl, rfl, rfl, rfl, rfl, rfl, rfl, rfl⟩
    (by decide)

theorem sappend_nil (a : String) : a ++ "" = a := by
  show String.mk (a.data ++ []) = a
  rw [List.append_nil]

theorem sappend_assoc (a b c : String) : a ++ b ++ c = a ++ (b ++ c) := by
  show String.mk ((a.data ++ b.data) ++ c.data) = String.mk (a.data ++ (b.data ++ c.data))
  rw [List.append_assoc]

theorem renderParts_append (l1 l2 : List SqlPart) :
    renderParts (l1 ++ l2) = renderParts l1 ++ renderParts l2 := by
  induction l1 with
  | nil => rfl
  | cons p t ih =>
    show renderPart p ++ renderParts (t ++ l2) = renderPart p ++ renderParts t ++ renderParts l2
    rw [ih, sappend_assoc]

theorem renderParts_whereParts (conds : List String) :
    renderParts (whereParts conds) = andWhere conds := by
  induction conds with
  | nil => rfl
  | cons c t ih =>
    show renderPart (.lit " AND (") ++ (renderPart (.pass c) ++
      (renderPart (.lit ")") ++ renderParts (whereParts t))) = _
    rw [ih]
    show " AND (" ++ (c ++ (")" ++ andWhere t)) = " AND (" ++ c ++ ")" ++ andWhere t
    rw [sappend_assoc, sappend_assoc]

theorem buildSQL_eq_renderParts (args : Args) :
    buildSQL args = renderParts (sqlParts args) := by
  unfold buildSQL sqlParts
  rw [renderParts_append, renderParts_append, renderParts_append,
    renderParts_append, renderParts_append, renderParts_whereParts]
  have hlim : renderParts (if args.limit > 0 then [SqlPart.limitP args.limit] else [])
      = limitClause args := by
    by_cases hl : args.limit > 0 <;> simp [hl, renderParts, renderPart, limitClause, sappend_nil]
  have hoff : renderParts (if args.offset > 0 then [SqlPart.offsetP args.offset] else [])
      = offsetClause args := by
    by_cases ho : args.offset > 0 <;> simp [ho, renderParts, renderPart, offsetClause, sappend_nil]
  rw [hlim, hoff]
  show selectClause args ++ " FROM " ++ buildTableName args.cluster args.table ++
      " WHERE MATCH(" ++ sqS ++ escDouble args.query ++ sqS ++ ")" ++
      andWhere args.whereConds ++ groupClause args ++ orderClause args ++
      limitClause args ++ offsetClause args ++ optionClause args
    = (selectClause args ++ (" FROM " ++
        (buildTableName args.cluster args.table ++ (" WHERE " ++
          ("MATCH(" ++ sqS ++ escDouble args.query ++ sqS ++ ")" ++ ""))))) ++
      andWhere args.whereConds ++
      (groupClause args ++ (orderClause args ++ "")) ++
      limitClause args ++ offsetClause args ++ (optionClause args ++ "")
  rw [sappend_nil, sappend_nil, sappend_nil]
  have key : ∀ X : String, (" WHERE MATCH(" : String) ++ X = " WHERE " ++ ("MATCH(" ++ X) := by
    intro X
    rw [← sappend_assoc]
    rfl
  simp only [sappend_assoc]
  rw [key]

theorem countP_whereParts (conds : List String) :
    (whereParts conds).countP (fun p => p.isMatchPred) = 0 := by
  induction conds with
  | nil => rfl
  | cons c t ih =>
    show (SqlPart.lit " AND (" :: SqlPart.pass c :: SqlPart.lit ")" :: whereParts t).countP
      (fun p => p.isMatchPred) = 0
    rw [List.countP_cons, List.countP_cons, List.countP_cons, ih]
    rfl

theorem pairedQuotes_dqL (l : List Char) : pairedQuotes (dqL l) = true := by
  induction l with
  | nil => rfl
  | cons c t ih =>
    by_cases hc : c = sqC
    · subst hc
      have h : dqL (sqC :: t) = sqC :: sqC :: dqL t := by simp [dqL]
      rw [h]
      simp [pairedQuotes, ih]
    · have h : dqL (c :: t) = c :: dqL t := by simp [dqL, hc]
      rw [h]
      cases hm : dqL t with
      | nil => simp [pairedQuotes, hc]
      | cons d u =>
        rw [← hm]
        have h2 : pairedQuotes (c :: dqL t) = pairedQuotes (dqL t) := by
          rw [hm]
          simp [pairedQuotes, hc]
        rw [h2, ih]

theorem sqlParts_decomp (args : Args) :
    sqlParts args = SqlPart.lit (selectClause args) :: SqlPart.lit " FROM " ::
      SqlPart.pass (buildTableName args.cluster args.table) :: SqlPart.lit " WHERE " ::
      SqlPart.matchPred args.query ::
      (whereParts args.whereConds ++
        (SqlPart.lit (groupClause args) :: SqlPart.lit (orderClause args) ::
          ((if args.limit > 0 then [SqlPart.limitP args.limit] else []) ++
            ((if args.offset > 0 then [SqlPart.offsetP args.offset] else []) ++
              [SqlPart.lit (optionClause args)])))) := by
  unfold sqlParts
  simp [List.append_assoc]

/-- C3: for a request with a collection name and free-text query, the
segment list of the textual statement contains exactly one full-text match
predicate; that predicate is the match-predicate segment for the query and
renders as MATCH over the quote-doubled query text, in which every single
quote coming from the query is part of a doubled pair (no unescaped quote
survives); each raw filter is appended parenthesized and AND-joined directly
after the predicate; and the statement of buildSQL is exactly the rendering
of this segment list. -/
theorem c3_single_match_predicate (args : Args)
    (htable : args.table ≠ "") (hquery : args.query ≠ "") :
    (sqlParts args).countP (fun p => p.isMatchPred) = 1 ∧
    SqlPart.matchPred args.query ∈ sqlParts args ∧
    renderPart (SqlPart.matchPred args.query)
      = "MATCH(" ++ sqS ++ escDouble args.query ++ sqS ++ ")" ∧
    pairedQuotes (escDouble args.query).data = true ∧
    (∃ pre post, sqlParts args
      = pre ++ SqlPart.matchPred args.query :: (whereParts args.whereConds ++ post)) ∧
    buildSQL args = renderParts (sqlParts args) := by
  refine ⟨?_, ?_, rfl, pairedQuotes_dqL args.query.data, ?_, buildSQL_eq_renderParts args⟩
  · rw [sqlParts_decomp]
    rw [List.countP_cons, List.countP_cons, List.countP_cons, List.countP_cons,
      List.countP_cons, List.countP_append, countP_whereParts]
    rw [List.countP_cons, List.countP_cons, List.countP_append, List.countP_append]
    by_cases hl : args.limit > 0 <;> by_cases ho : args.offset > 0 <;>
      simp [hl, ho, List.countP_cons, SqlPart.isMatchPred]
  · rw [sqlParts_decomp]
    simp
  · refine ⟨[SqlPart.lit (selectClause args), SqlPart.lit " FROM ",
      SqlPart.pass (buildTableName args.cluster args.table), SqlPart.lit " WHERE "],
      SqlPart.lit (groupClause args) :: SqlPart.lit (orderClause args) ::
        ((if args.limit > 0 then [SqlPart.limitP args.limit] else []) ++
          ((if args.offset > 0 then [SqlPart.offsetP args.offset] else []) ++
            [SqlPart.lit (optionClause args)])), ?_⟩
    rw [sqlParts_decomp]
    simp

/-- Witness for C3 at a concrete request. -/
theorem c3_single_match_predicate_witness :
    (sqlParts { baseArgs with query := "test" }).countP (fun p => p.isMatchPred) = 1 ∧
    SqlPart.matchPred ({ baseArgs with query := "test" } : Args).query
      ∈ sqlParts { baseArgs with query := "test" } ∧
    renderPart (SqlPart.matchPred ({ baseArgs with query := "test" } : Args).query)
      = "MATCH(" ++ sqS ++ escDouble ({ baseArgs with query := "test" } : Args).query ++ sqS ++ ")" ∧
    pairedQuotes (escDouble ({ baseArgs with query := "test" } : Args).query).data = true ∧
    (∃ pre post, sqlParts { baseArgs with query := "test" }
      = pre ++ SqlPart.matchPred ({ baseArgs with query := "test" } : Args).query ::
          (whereParts ({ baseArgs with query := "test" } : Args).whereConds ++ post)) ∧
    buildSQL { baseArgs with query := "test" }
      = renderParts (sqlParts { baseArgs with query := "test" }) :=
  c3_single_match_predicate { baseArgs with query := "test" } (by decide) (by decide)

theorem whereParts_any_limit (conds : List String) :
    (whereParts conds).any (fun p => p.isLimit) = false := by
  induction conds with
  | nil => rfl
  | cons c t ih =>
    show (SqlPart.lit " AND (" :: SqlPart.pass c :: SqlPart.lit ")" :: whereParts t).any
      (fun p => p.isLimit) = false
    rw [List.any_cons, List.any_cons, List.any_cons, ih]
    rfl

theorem whereParts_any_offset (conds : List String) :
    (whereParts conds).any (fun p => p.isOffset) = false := by
  induction conds with
  | nil => rfl
  | cons c t ih =>
    show (SqlPart.lit " AND (" :: SqlPart.pass c :: SqlPart.lit ")" :: whereParts t).any
      (fun p => p.isOffset) = false
    rw [List.any_cons, List.any_cons, List.any_cons, ih]
    rfl

/-- C9: the LIMIT segment is present in the textual statement exactly when
the limit is positive, and the OFFSET segment exactly when the offset is
positive; with limit and offset both 0 the concrete statement contains
neither clause, and with limit 10 and offset 0 it contains LIMIT but not
OFFSET. -/
theorem c9_limit_offset_iff (args : Args) :
    ((sqlParts args).any (fun p => p.isLimit) = true ↔ args.limit > 0) ∧
    ((sqlParts args).any (fun p => p.isOffset) = true ↔ args.offset > 0) ∧
    buildSQL args = renderParts (sqlParts args) ∧
    hasSub (buildSQL { baseArgs with query := "test" }) " LIMIT " = false ∧
    hasSub (buildSQL { baseArgs with query := "test" }) " OFFSET " = false ∧
    hasSub (buildSQL { baseArgs with query := "test", limit := 10 }) " LIMIT " = true ∧
    hasSub (buildSQL { baseArgs with query := "test", limit := 10 }) " OFFSET " = false := by
  refine ⟨?_, ?_, buildSQL_eq_renderParts args, by decide, by decide, by decide, by decide⟩
  · rw [sqlParts_decomp]
    by_cases hl : args.limit > 0 <;> by_cases ho : args.offset > 0 <;>
      · rw [List.any_cons, List.any_cons, List.any_cons, List.any_cons, List.any_cons,
          List.any_append, whereParts_any_limit]
        simp [hl, ho, SqlPart.isLimit]
  · rw [sqlParts_decomp]
    by_cases hl : args.limit > 0 <;> by_cases ho : args.offset > 0 <;>
      · rw [List.any_cons, List.any_cons, List.any_cons, List.any_cons, List.any_cons,
          List.any_append, whereParts_any_offset]
        simp [hl, ho, SqlPart.isOffset]

theorem isPrefixOf_self_append (l t : List Char) : l.isPrefixOf (l ++ t) = true := by
  induction l with
  | nil => cases t <;> rfl
  | cons c l ih => simp [List.isPrefixOf, ih]

theorem hasSubL_middle (a pat b : List Char) : hasSubL pat (a ++ (pat ++ b)) = true := by
  induction a with
  | nil =>
    cases pat with
    | nil =>
      cases b with
      | nil => rfl
      | cons c t => simp [hasSubL, List.isPrefixOf]
    | cons p ps =>
      show hasSubL (p :: ps) (p :: (ps ++ b)) = true
      simp [hasSubL, isPrefixOf_self_append]
  | cons c a ih =>
    show hasSubL pat (c :: (a ++ (pat ++ b))) = true
    simp [hasSubL, ih]

/-- C10: the text compiler emits the full-text match predicate
unconditionally; with an empty query the statement decomposes around the
match predicate with an empty pattern, placed as the first WHERE conjunct
and followed by the AND-joined parenthesized raw filters, the statement
contains that empty predicate as a substring, and on every accepted input of
the text path (non-empty filters, non-empty table, no boolean query, no
mode flag) the statement handed to the client is exactly this one. -/
theorem c10_empty_query_emits_empty_match (args : Args) (hq : args.query = "") :
    buildSQL args
      = (selectClause args ++ " FROM " ++ buildTableName args.cluster args.table ++
          " WHERE ") ++ ("MATCH(" ++ sqS ++ sqS ++ ")") ++
        (andWhere args.whereConds ++ (groupClause args ++ (orderClause args ++
          (limitClause args ++ (offsetClause args ++ optionClause args))))) ∧
    hasSub (buildSQL args) ("MATCH(" ++ sqS ++ sqS ++ ")") = true ∧
    (args.whereConds ≠ [] → args.table ≠ "" → args.boolQuery = none →
      args.useHTTP = false →
      ∀ (client : String → Except String Unit),
        (execute client args).2 = [buildSQL (sqlArgsNorm args)]) := by
  have hdec : buildSQL args
      = (selectClause args ++ " FROM " ++ buildTableName args.cluster args.table ++
          " WHERE ") ++ ("MATCH(" ++ sqS ++ sqS ++ ")") ++
        (andWhere args.whereConds ++ (groupClause args ++ (orderClause args ++
          (limitClause args ++ (offsetClause args ++ optionClause args))))) := by
    unfold buildSQL
    rw [hq]
    have hesc : escDouble "" = "" := rfl
    rw [hesc, sappend_nil]
    have key : ∀ X : String, (" WHERE MATCH(" : String) ++ X
        = " WHERE " ++ ("MATCH(" ++ X) := by
      intro X
      rw [← sappend_assoc]
      rfl
    simp only [sappend_assoc]
    rw [key]
  refine ⟨hdec, ?_, ?_⟩
  · have hdata : (buildSQL args).data
        = (selectClause args ++ " FROM " ++ buildTableName args.cluster args.table ++
            " WHERE ").data ++
          (("MATCH(" ++ sqS ++ sqS ++ ")").data ++
            (andWhere args.whereConds ++ (groupClause args ++ (orderClause args ++
              (limitClause args ++ (offsetClause args ++ optionClause args))))).data) := by
      rw [hdec, sdata_append, sdata_append, List.append_assoc]
    show hasSubL ("MATCH(" ++ sqS ++ sqS ++ ")").data (buildSQL args).data = true
    rw [hdata]
    exact hasSubL_middle _ _ _
  · intro hw ht hb hh client
    unfold execute executeHTTPQuery executeSQLQuery
    rw [if_neg ht]
    rw [hh, hb]
    simp only [Option.isSome_none, Bool.or_self, Bool.false_eq_true, if_false]
    rw [if_neg (fun hcc => hw hcc.2)]
    split <;> rfl

/-- Witness for C10: a concrete accepted request with empty query and one
raw filter sends exactly the normalized statement to the client. -/
theorem c10_empty_query_emits_empty_match_witness :
    (execute (fun _ => Except.ok ()) { baseArgs with whereConds := ["price > 10"] }).2
      = [buildSQL (sqlArgsNorm { baseArgs with whereConds := ["price > 10"] })] := by
  have h := (c10_empty_query_emits_empty_match
      { baseArgs with whereConds := ["price > 10"] } rfl).2.2
    (by decide) (by decide) rfl rfl (fun _ => Except.ok ())
  exact h

set_option maxHeartbeats 2000000 in
/-- C4: the boolean clause compiler fails on every tag outside the known set
with the unsupported-clause error naming that tag, fails on every known tag
whose payload does not have the declared shape with the invalid-data error
of that tag (returning no partial document, since the result is an error and
carries no document), every error it can return is one of these two kinds,
the error texts name the offending tag, and the concrete example of the
specification (tag match with an object payload lacking the field key)
returns the malformed-payload error. -/
theorem c4_clause_failure_modes :
    (∀ (t : String) (d : CD), t ∉ knownTags →
      buildSingleClause (t, d) = .error (.unsupportedClauseType t)) ∧
    (∀ (t : String) (d : CD), t ∈ knownTags → shapeMatches t d = false →
      buildSingleClause (t, d) = .error (payloadErr t)) ∧
    (∀ (c : QueryClause) (e : BErr), buildSingleClause c = .error e →
      (∃ t2, e = .unsupportedClauseType t2) ∨
        e ∈ [BErr.invalidMatchClauseData, .invalidRangeClauseData,
          .invalidEqualsClauseData, .invalidInClauseData,
          .invalidGeoDistanceClauseData, .invalidQueryStringClauseData,
          .invalidBoolClauseData]) ∧
    (∀ t : String, hasSub (errText (.unsupportedClauseType t)) t = true) ∧
    hasSub (errText .invalidMatchClauseData) "match" = true ∧
    hasSub (errText .invalidRangeClauseData) "range" = true ∧
    hasSub (errText .invalidEqualsClauseData) "equals" = true ∧
    hasSub (errText .invalidInClauseData) "in" = true ∧
    hasSub (errText .invalidGeoDistanceClauseData) "geo_distance" = true ∧
    hasSub (errText .invalidQueryStringClauseData) "query_string" = true ∧
    hasSub (errText .invalidBoolClauseData) "bool" = true ∧
    buildSingleClause ("match", .dynData (.obj [("query", .s "x")]))
      = .error .invalidMatchClauseData := by
  refine ⟨?_, ?_, ?_, ?_, by decide, by decide, by decide, by decide, by decide,
    by decide, by decide, by rw [buildSingleClause.eq_def]; rfl⟩
  · intro t d ht
    simp [knownTags] at ht
    obtain ⟨n1, n2, n3, n4, n5, n6, n7, n8⟩ := ht
    rw [buildSingleClause.eq_def]
    split <;> simp_all
  · intro t d ht hs
    simp [knownTags] at ht
    rw [buildSingleClause.eq_def]
    rcases ht with rfl | rfl | rfl | rfl | rfl | rfl | rfl | rfl <;> cases d <;>
      first
        | rfl
        | simp [shapeMatches] at hs
  · intro c e _
    cases e with
    | unsupportedClauseType t2 => exact Or.inl ⟨t2, rfl⟩
    | invalidMatchClauseData => simp
    | invalidRangeClauseData => simp
    | invalidEqualsClauseData => simp
    | invalidInClauseData => simp
    | invalidGeoDistanceClauseData => simp
    | invalidQueryStringClauseData => simp
    | invalidBoolClauseData => simp
  · intro t
    show hasSubL t.data ("unsupported query clause type: " ++ t).data = true
    rw [sdata_append]
    have h := hasSubL_middle ("unsupported query clause type: ").data t.data []
    rw [List.append_nil] at h
    exact h

/-- Witness for C4 at a concrete unknown tag. -/
theorem c4_clause_failure_modes_witness :
    buildSingleClause ("fuzzy", CD.matchAllData)
      = .error (.unsupportedClauseType "fuzzy") :=
  c4_clause_failure_modes.1 "fuzzy" CD.matchAllData (by decide)

theorem exc_bind_ok {ε α β : Type} {x : Except ε α} {f : α → Except ε β} {b : β}
    (h : (x >>= f) = .ok b) : ∃ a, x = .ok a ∧ f a = .ok b := by
  cases x with
  | error e => exact absurd h (by simp [Bind.bind, Except.bind])
  | ok a =>
    refine ⟨a, rfl, ?_⟩
    simpa [Bind.bind, Except.bind] using h

theorem buildQueryClauses_length {l : List QueryClause} {r : List JVal}
    (h : buildQueryClauses l = .ok r) : r.length = l.length := by
  induction l generalizing r with
  | nil =>
    rw [buildQueryClauses.eq_def] at h
    cases h
    rfl
  | cons c t ih =>
    rw [buildQueryClauses.eq_def] at h
    obtain ⟨a, _, h2⟩ := exc_bind_ok h
    obtain ⟨l2, hl2, h3⟩ := exc_bind_ok h2
    cases h3
    simp [ih hl2]

theorem jlookup_none {entries : List (String × JVal)} {k : String}
    (h : ∀ p ∈ entries, p.1 ≠ k) : jlookup entries k = none := by
  induction entries with
  | nil => rfl
  | cons p t ih =>
    show (if p.1 = k then some p.2 else jlookup t k) = none
    rw [if_neg (h p (List.mem_cons_self p t))]
    exact ih (fun q hq => h q (List.mem_cons_of_mem p hq))

theorem jlookup_append (l1 l2 : List (String × JVal)) (k : String) :
    jlookup (l1 ++ l2) k
      = match jlookup l1 k with
        | some v => some v
        | none => jlookup l2 k := by
  induction l1 with
  | nil => rfl
  | cons p t ih =>
    show (if p.1 = k then some p.2 else jlookup (t ++ l2) k) = _
    by_cases hp : p.1 = k
    · simp [jlookup, hp]
    · simp [jlookup, hp, ih]

theorem boolSeg_ok {l : List QueryClause} {key : String} {ent : List (String × JVal)}
    (h : boolSeg key l = .ok ent) :
    (l = [] ∧ ent = []) ∨
    (l ≠ [] ∧ ∃ r, buildQueryClauses l = .ok r ∧ ent = [(key, JVal.arr r)] ∧
      r.length = l.length) := by
  rw [boolSeg.eq_def] at h
  by_cases hl : l.isEmpty
  · rw [if_pos hl] at h
    cases h
    exact Or.inl ⟨List.isEmpty_iff.mp hl, rfl⟩
  · rw [if_neg hl] at h
    obtain ⟨r, hr, h2⟩ := exc_bind_ok h
    cases h2
    exact Or.inr ⟨fun hnil => hl (by simp [hnil]), r, hr, rfl, buildQueryClauses_length hr⟩

/-- C5: a successfully compiled BoolQuery is a single bool object whose
must, should and must_not keys are present exactly when the corresponding
clause list is non-empty, each holding the in-order compilation of its
source list with one entry per source clause. -/
theorem c5_bool_query_keys (bq : BoolQuery) (j : JVal)
    (h : buildBoolQueryJ bq.must bq.should bq.mustNot = .ok j) :
    ∃ entries, j = .obj [("bool", .obj entries)] ∧
      (bq.must = [] → jlookup entries "must" = none) ∧
      (bq.must ≠ [] → ∃ lm, jlookup entries "must" = some (.arr lm) ∧
        buildQueryClauses bq.must = .ok lm ∧ lm.length = bq.must.length) ∧
      (bq.should = [] → jlookup entries "should" = none) ∧
      (bq.should ≠ [] → ∃ ls, jlookup entries "should" = some (.arr ls) ∧
        buildQueryClauses bq.should = .ok ls ∧ ls.length = bq.should.length) ∧
      (bq.mustNot = [] → jlookup entries "must_not" = none) ∧
      (bq.mustNot ≠ [] → ∃ ln, jlookup entries "must_not" = some (.arr ln) ∧
        buildQueryClauses bq.mustNot = .ok ln ∧ ln.length = bq.mustNot.length) := by
  rw [buildBoolQueryJ.eq_def] at h
  obtain ⟨mEnt, hm, h2⟩ := exc_bind_ok h
  obtain ⟨sEnt, hs, h3⟩ := exc_bind_ok h2
  obtain ⟨nEnt, hn, h4⟩ := exc_bind_ok h3
  cases h4
  refine ⟨mEnt ++ sEnt ++ nEnt, rfl, ?_⟩
  have hmSeg := boolSeg_ok hm
  have hsSeg := boolSeg_ok hs
  have hnSeg := boolSeg_ok hn
  have hmKeys : ∀ p ∈ mEnt, p.1 = "must" := by
    rcases hmSeg with ⟨_, rfl⟩ | ⟨_, r, _, rfl, _⟩ <;> simp
  have hsKeys : ∀ p ∈ sEnt, p.1 = "should" := by
    rcases hsSeg with ⟨_, rfl⟩ | ⟨_, r, _, rfl, _⟩ <;> simp
  have hnKeys : ∀ p ∈ nEnt, p.1 = "must_not" := by
    rcases hnSeg with ⟨_, rfl⟩ | ⟨_, r, _, rfl, _⟩ <;> simp
  have lookAt : ∀ k, jlookup (mEnt ++ sEnt ++ nEnt) k
      = match jlookup mEnt k with
        | some v => some v
        | none =>
          match jlookup sEnt k with
          | some v => some v
          | none => jlookup nEnt k := by
    intro k
    rw [jlookup_append, jlookup_append]
    cases jlookup mEnt k <;> simp
  have hsNoMust : jlookup sEnt "must" = none :=
    jlookup_none (fun p hp => by rw [hsKeys p hp]; decide)
  have hnNoMust : jlookup nEnt "must" = none :=
    jlookup_none (fun p hp => by rw [hnKeys p hp]; decide)
  have hmNoShould : jlookup mEnt "should" = none :=
    jlookup_none (fun p hp => by rw [hmKeys p hp]; decide)
  have hnNoShould : jlookup nEnt "should" = none :=
    jlookup_none (fun p hp => by rw [hnKeys p hp]; decide)
  have hmNoMN : jlookup mEnt "must_not" = none :=
    jlookup_none (fun p hp => by rw [hmKeys p hp]; decide)
  have hsNoMN : jlookup sEnt "must_not" = none :=
    jlookup_none (fun p hp => by rw [hsKeys p hp]; decide)
  refine ⟨?_, ?_, ?_, ?_, ?_, ?_⟩
  · intro h0
    rcases hmSeg with ⟨_, rfl⟩ | ⟨hne, _⟩
    · rw [lookAt]
      simp [jlookup, hsNoMust, hnNoMust]
    · exact absurd h0 hne
  · intro h0
    rcases hmSeg with ⟨he, _⟩ | ⟨_, r, hr, rfl, hlen⟩
    · exact absurd he h0
    · refine ⟨r, ?_, hr, hlen⟩
      rw [lookAt]
      simp [jlookup]
  · intro h0
    rcases hsSeg with ⟨_, rfl⟩ | ⟨hne, _⟩
    · rw [lookAt]
      simp [jlookup, hmNoShould, hnNoShould]
    · exact absurd h0 hne
  · intro h0
    rcases hsSeg with ⟨he, _⟩ | ⟨_, r, hr, rfl, hlen⟩
    · exact absurd he h0
    · refine ⟨r, ?_, hr, hlen⟩
      rw [lookAt]
      simp [jlookup, hmNoShould]
  · intro h0
    rcases hnSeg with ⟨_, rfl⟩ | ⟨hne, _⟩
    · rw [lookAt]
      simp [jlookup, hmNoMN, hsNoMN]
    · exact absurd h0 hne
  · intro h0
    rcases hnSeg with ⟨he, _⟩ | ⟨_, r, hr, rfl, hlen⟩
    · exact absurd he h0
    · refine ⟨r, ?_, hr, hlen⟩
      rw [lookAt]
      simp [jlookup, hmNoMN, hsNoMN]

/-- Witness for C5: one Match clause in must and one Equals clause in
must_not produce a bool object with a one-entry must, a one-entry must_not,
and no should key. -/
theorem c5_bool_query_keys_witness :
    ∃ entries,
      (JVal.obj [("bool", JVal.obj
        [("must", JVal.arr [JVal.obj [("match", JVal.obj [("title", JVal.s "test")])]]),
         ("must_not", JVal.arr [JVal.obj [("equals", JVal.obj [("status", JVal.i 1)])]])])])
        = JVal.obj [("bool", JVal.obj entries)] ∧
      (([("match", CD.matchData "title" "test" "")] : List QueryClause) = [] →
        jlookup entries "must" = none) ∧
      (([("match", CD.matchData "title" "test" "")] : List QueryClause) ≠ [] →
        ∃ lm, jlookup entries "must" = some (.arr lm) ∧
          buildQueryClauses [("match", CD.matchData "title" "test" "")] = .ok lm ∧
          lm.length = ([("match", CD.matchData "title" "test" "")] : List QueryClause).length) ∧
      (([] : List QueryClause) = [] → jlookup entries "should" = none) ∧
      (([] : List QueryClause) ≠ [] →
        ∃ ls, jlookup entries "should" = some (.arr ls) ∧
          buildQueryClauses [] = .ok ls ∧ ls.length = ([] : List QueryClause).length) ∧
      (([("equals", CD.equalsData "status" (JVal.i 1))] : List QueryClause) = [] →
        jlookup entries "must_not" = none) ∧
      (([("equals", CD.equalsData "status" (JVal.i 1))] : List QueryClause) ≠ [] →
        ∃ ln, jlookup entries "must_not" = some (.arr ln) ∧
          buildQueryClauses [("equals", CD.equalsData "status" (JVal.i 1))] = .ok ln ∧
          ln.length = ([("equals", CD.equalsData "status" (JVal.i 1))] : List QueryClause).length) :=
  c5_bool_query_keys
    ⟨[("match", CD.matchData "title" "test" "")], [],
      [("equals", CD.equalsData "status" (JVal.i 1))]⟩
    _
    (by simp [buildBoolQueryJ, boolSeg, buildQueryClauses, buildSingleClause,
          buildMatchClauseJ, buildEqualsClauseJ]
        rfl)

/-- C6: the JSON-query document always carries a query key, chosen by
exactly this rule: the compiled boolean query when one is present, else a
single match clause over all fields when free text is present, else an
explicit match-all clause. -/
theorem c6_query_key_rule (args : Args) (q : List (String × JVal))
    (h : buildHTTPQuery args = .ok q) :
    ∃ v, jlookup q "query" = some v ∧
      ((∃ bq, args.boolQuery = some bq ∧
          buildBoolQueryJ bq.must bq.should bq.mustNot = .ok v) ∨
       (args.boolQuery = none ∧ args.query ≠ "" ∧
          v = .obj [("match", .obj [("*", .s args.query)])]) ∨
       (args.boolQuery = none ∧ args.query = "" ∧
          v = .obj [("match_all", .obj [])])) := by
  unfold buildHTTPQuery at h
  obtain ⟨mq, hmq, h2⟩ := exc_bind_ok h
  cases h2
  refine ⟨mq, ?_, ?_⟩
  · simp [jlookup]
  · unfold mainQueryJ at hmq
    cases hbq : args.boolQuery with
    | some bq =>
      rw [hbq] at hmq
      exact Or.inl ⟨bq, rfl, hmq⟩
    | none =>
      rw [hbq] at hmq
      by_cases hq : args.query = ""
      · rw [if_neg (by simp [hq])] at hmq
        cases hmq
        exact Or.inr (Or.inr ⟨rfl, hq, rfl⟩)
      · rw [if_pos hq] at hmq
        cases hmq
        exact Or.inr (Or.inl ⟨rfl, hq, rfl⟩)

/-- Witness for C6 at a concrete free-text request. -/
theorem c6_query_key_rule_witness :
    ∃ v, jlookup [("table", JVal.s "products"),
        ("query", JVal.obj [("match", JVal.obj [("*", JVal.s "hello")])])] "query"
        = some v ∧
      ((∃ bq, ({ baseArgs with query := "hello" } : Args).boolQuery = some bq ∧
          buildBoolQueryJ bq.must bq.should bq.mustNot = .ok v) ∨
       (({ baseArgs with query := "hello" } : Args).boolQuery = none ∧
          ({ baseArgs with query := "hello" } : Args).query ≠ "" ∧
          v = .obj [("match", .obj [("*", .s ({ baseArgs with query := "hello" } : Args).query)])]) ∨
       (({ baseArgs with query := "hello" } : Args).boolQuery = none ∧
          ({ baseArgs with query := "hello" } : Args).query = "" ∧
          v = .obj [("match_all", .obj [])])) :=
  c6_query_key_rule { baseArgs with query := "hello" } _ rfl

theorem mem_ite_singleton {α : Type} {e x : α} {c : Prop} [Decidable c]
    (h : e ∈ (if c then [x] else [])) : e = x ∧ c := by
  split at h
  · next hc => exact ⟨by simpa using h, hc⟩
  · simp at h

theorem basic_no_bs (args : Args) :
    ∀ e ∈ addBasicSQLOptions args, isBoolSimplifyEntry e = false := by
  intro e he
  unfold addBasicSQLOptions at he
  simp only [List.append_assoc, List.mem_append] at he
  rcases he with h | h | h | h | h | h <;> rcases mem_ite_singleton h with ⟨rfl, _⟩ <;> rfl

theorem agent_no_bs (args : Args) :
    ∀ e ∈ addAgentSQLOptions args, isBoolSimplifyEntry e = false := by
  intro e he
  unfold addAgentSQLOptions at he
  simp only [List.append_assoc, List.mem_append] at he
  rcases he with h | h | h <;> rcases mem_ite_singleton h with ⟨rfl, _⟩ <;> rfl

theorem not_true_of_eq_false {b : Bool} (h : b = false) : ¬ b = true := by
  simp [h]

theorem fuzzy_no_bs (args : Args) :
    ∀ e ∈ addFuzzySQLOptions args, isBoolSimplifyEntry e = false := by
  intro e he
  unfold addFuzzySQLOptions at he
  cases hf : args.fuzzy with
  | none =>
    simp only [hf] at he
    simp at he
  | some f =>
    simp only [hf] at he
    by_cases hen : f.enabled
    · rw [if_pos hen] at he
      simp only [List.append_assoc, List.cons_append, List.nil_append,
        List.mem_cons, List.mem_append] at he
      rcases he with rfl | h | h | h
      · rfl
      all_goals rcases mem_ite_singleton h with ⟨rfl, _⟩ <;> rfl
    · rw [if_neg hen] at he
      simp at he

theorem advanced_bs (args : Args) :
    ∀ e ∈ addAdvancedSQLOptions args, isBoolSimplifyEntry e = true →
      e = "boolean_simplify=0" ∧ args.booleanSimplify = 0 := by
  intro e he hbs
  unfold addAdvancedSQLOptions at he
  simp only [List.append_assoc, List.mem_append] at he
  rcases he with h | h | h | h | h | h | h <;>
    rcases mem_ite_singleton h with ⟨rfl, hc⟩ <;>
    first
      | exact absurd hbs (not_true_of_eq_false rfl)
      | exact ⟨rfl, hc⟩

theorem jlookup_ite_single_ne {c : Prop} [Decidable c] {k1 k : String} {v : JVal}
    (h : k1 ≠ k) :
    jlookup (if c then [(k1, v)] else []) k = none := by
  split
  · simp [jlookup, h]
  · rfl

theorem basicJ_no_bs (args : Args) :
    jlookup (addBasicOptionsJ args) "boolean_simplify" = none := by
  unfold addBasicOptionsJ
  simp only [List.append_assoc]
  rw [jlookup_append, jlookup_ite_single_ne (by decide)]
  rw [jlookup_append, jlookup_ite_single_ne (by decide)]
  rw [jlookup_append, jlookup_ite_single_ne (by decide)]
  rw [jlookup_append, jlookup_ite_single_ne (by decide)]
  rw [jlookup_append, jlookup_ite_single_ne (by decide)]
  rw [jlookup_ite_single_ne (by decide)]

theorem agentJ_no_bs (args : Args) :
    jlookup (addAgentOptionsJ args) "boolean_simplify" = none := by
  unfold addAgentOptionsJ
  simp only [List.append_assoc]
  rw [jlookup_append, jlookup_ite_single_ne (by decide)]
  rw [jlookup_append, jlookup_ite_single_ne (by decide)]
  rw [jlookup_ite_single_ne (by decide)]

theorem advancedJ_bs (args : Args) :
    jlookup (addAdvancedOptionsJ args) "boolean_simplify"
      = if args.booleanSimplify = 0 then some (JVal.i 0) else none := by
  unfold addAdvancedOptionsJ
  simp only [List.append_assoc]
  rw [jlookup_append, jlookup_ite_single_ne (by decide)]
  by_cases h0 : args.booleanSimplify = 0
  · rw [if_pos h0, if_pos h0]
    rfl
  · rw [if_neg h0, if_neg h0]
    simp only [List.nil_append]
    rw [jlookup_append, jlookup_ite_single_ne (by decide)]
    rw [jlookup_append, jlookup_ite_single_ne (by decide)]
    rw [jlookup_append, jlookup_ite_single_ne (by decide)]
    rw [jlookup_append, jlookup_ite_single_ne (by decide)]
    rw [jlookup_ite_single_ne (by decide)]

/-- C7 amended: in the options output of both compilers the simplification
toggle appears exactly when the field equals 0 (the disabled state), and
then always as the entry boolean_simplify=0; in particular the default
enabled value never appears. -/
theorem c7_boolean_simplify_rule (args : Args) :
    ((∃ e ∈ sqlOptionEntries args, isBoolSimplifyEntry e = true) ↔
      args.booleanSimplify = 0) ∧
    (args.booleanSimplify = 0 → "boolean_simplify=0" ∈ sqlOptionEntries args) ∧
    jlookup (buildHTTPOptions args) "boolean_simplify"
      = (if args.booleanSimplify = 0 then some (JVal.i 0) else none) := by
  have hmem : args.booleanSimplify = 0 → "boolean_simplify=0" ∈ sqlOptionEntries args := by
    intro h0
    unfold sqlOptionEntries addAdvancedSQLOptions
    simp [h0, List.mem_append]
  refine ⟨⟨?_, ?_⟩, hmem, ?_⟩
  · rintro ⟨e, he, hbs⟩
    unfold sqlOptionEntries at he
    simp only [List.append_assoc, List.mem_append] at he
    rcases he with h | h | h | h
    · exact absurd hbs (not_true_of_eq_false (basic_no_bs args e h))
    · exact (advanced_bs args e h hbs).2
    · exact absurd hbs (not_true_of_eq_false (agent_no_bs args e h))
    · exact absurd hbs (not_true_of_eq_false (fuzzy_no_bs args e h))
  · intro h0
    exact ⟨"boolean_simplify=0", hmem h0, rfl⟩
  · unfold buildHTTPOptions
    simp only [List.append_assoc]
    rw [jlookup_append, basicJ_no_bs]
    show jlookup (addAdvancedOptionsJ args ++ addAgentOptionsJ args) "boolean_simplify" = _
    rw [jlookup_append, advancedJ_bs]
    by_cases h0 : args.booleanSimplify = 0
    · rw [if_pos h0]
    · rw [if_neg h0]
      exact agentJ_no_bs args

/-- C7 counterexample: the claim that every non-default simplify value
appears in the options output fails at the value 2, which is neither the
default nor ever emitted by either compiler. -/
theorem c7_counterexample :
    ¬ (∀ args : Args, args.booleanSimplify ≠ 1 →
        (∃ e ∈ sqlOptionEntries args, isBoolSimplifyEntry e = true) ∧
        (jlookup (buildHTTPOptions args) "boolean_simplify").isSome = true) := by
  intro hclaim
  have h := hclaim { baseArgs with query := "test", booleanSimplify := 2 } (by decide)
  obtain ⟨⟨e, he, _⟩, _⟩ := h
  rw [show sqlOptionEntries { baseArgs with query := "test", booleanSimplify := 2 } = []
    from rfl] at he
  exact absurd he (List.not_mem_nil e)

/-- Witness for the amended C7 rule: with the toggle disabled the entry is
present in the textual option list. -/
theorem c7_boolean_simplify_rule_witness :
    "boolean_simplify=0" ∈ sqlOptionEntries { baseArgs with booleanSimplify := 0 } :=
  (c7_boolean_simplify_rule { baseArgs with booleanSimplify := 0 }).2.1 rfl

theorem simulate_err_not_compile {α : Type} (client : String → Except String α)
    (doc : List (String × JVal)) (e : ExecErr)
    (h : (simulateHTTPQuery client doc).1 = .error e) : e.isCompileErr = false := by
  unfold simulateHTTPQuery at h
  split at h
  · split at h
    · cases h
      rfl
    · split at h
      · exact absurd h (by simp)
      · cases h
        rfl
  · cases h
    rfl

/-- C8: whenever the search operation returns a compile-time error (missing
collection name, missing predicate source in text mode, or an unsupported
or malformed clause from the JSON compiler), no statement was handed to the
client: the recorded call trace is empty. -/
theorem c8_compile_errors_before_network {α : Type}
    (client : String → Except String α) (args : Args) (e : ExecErr)
    (h : (execute client args).1 = .error e) (hc : e.isCompileErr = true) :
    (execute client args).2 = [] := by
  unfold execute at h ⊢
  by_cases ht : args.table = ""
  · rw [if_pos ht]
  · rw [if_neg ht] at h ⊢
    by_cases hd : (args.useHTTP || args.boolQuery.isSome) = true
    · rw [if_pos hd] at h ⊢
      unfold executeHTTPQuery at h ⊢
      cases hb : buildHTTPQuery (httpArgsNorm args) with
      | error e2 => simp only [hb]
      | ok doc =>
        simp only [hb] at h ⊢
        have := simulate_err_not_compile client doc e h
        rw [this] at hc
        exact absurd hc (by decide)
    · rw [if_neg hd] at h ⊢
      unfold executeSQLQuery at h ⊢
      by_cases hq : args.query = "" ∧ args.whereConds = []
      · rw [if_pos hq]
      · rw [if_neg hq] at h ⊢
        exfalso
        split at h
        · exact absurd h (by simp)
        · cases h
          exact absurd hc (not_true_of_eq_false rfl)

/-- Witness for C8: a request without a collection name returns the
missing-collection error and the client was never invoked. -/
theorem c8_compile_errors_before_network_witness :
    (execute (fun _ => Except.ok ()) { baseArgs with table := "" }).2 = [] :=
  c8_compile_errors_before_network (fun _ => Except.ok ())
    { baseArgs with table := "" } .tableRequired rfl rfl
